import Mathlib

/-!
Verification development for the wx-uploader repository.

Shallow embedding of the publication pipeline: the metadata model and codec
(src/models.rs, src/markdown.rs), the cover-path resolution and the
publication orchestrator (src/wechat.rs), the configuration resolver
(src/models.rs, Config::from_file), and the scene-description truncation of
the provider abstraction (src/providers.rs).

Conventions:
- Rust `String` text (file contents, YAML blocks) is modelled as `List Char`;
  scalar field values are Lean `String`s.
- Filesystem paths are modelled structurally (absolute flag plus components),
  mirroring the operations std::path provides that the source uses
  (`is_absolute`, `parent`, `join`, `extension`).
- Fallible Rust functions returning `Result` become `Except`.
- All I/O (filesystem existence checks, AI generation calls, the publish
  client) is injected as explicit oracle functions; the orchestrator is a
  pure state-passing function that also records the externally observable
  events of a run.
-/

namespace WxUploader

/-! ## Paths: model of the std::path operations used by the source -/

/-- A filesystem path: whether it is absolute, plus its components.
Models `std::path::PathBuf` for the operations the source uses. -/
structure MPath where
  absolute : Bool
  components : List String
deriving DecidableEq, Repr

/-- Model of `Path::parent`: drop the final component; `None` for a root or
empty path (paths with no components). -/
def MPath.parent (p : MPath) : Option MPath :=
  match p.components with
  | [] => none
  | _ => some ⟨p.absolute, p.components.dropLast⟩

/-- Model of `Path::join` for a relative right-hand side (the only use in the
source, which checks `is_absolute` first). -/
def MPath.join (p q : MPath) : MPath :=
  ⟨p.absolute, p.components ++ q.components⟩

/-- Model of `Path::new(".")`, the fallback the source uses when the markdown
file path has no parent. -/
def MPath.curDir : MPath := ⟨false, ["."]⟩

/-- Split a character list on a separator character. -/
def splitOnChar (sep : Char) : List Char → List (List Char)
  | [] => [[]]
  | ch :: rest =>
    if ch = sep then [] :: splitOnChar sep rest
    else
      match splitOnChar sep rest with
      | [] => [[ch]]
      | l :: ls => (ch :: l) :: ls

/-- Parse a path string (as stored in a `cover` metadata field) into the
structural model: absolute iff it starts with `/`; components are the
non-empty `/`-separated segments. -/
def MPath.ofString (s : String) : MPath :=
  ⟨(match s.toList with | '/' :: _ => true | _ => false),
   ((splitOnChar '/' s.toList).filter (fun t => ¬ t = [])).map String.mk⟩

/-- Model of `Path::extension` on a file name: the part after the last dot,
none when there is no dot or the name is a pure dotfile like `.gitignore`. -/
def extOfName (name : String) : Option String :=
  match (splitOnChar '.' name.toList).map String.mk with
  | [] => none
  | [_] => none
  | first :: rest => if first = "" ∧ rest.length = 1 then none else rest.getLast?

/-- Model of `Path::extension`: extension of the final component. -/
def MPath.extension (p : MPath) : Option String :=
  match p.components.getLast? with
  | none => none
  | some n => extOfName n

/-! ## Error type (src/error.rs) -/

/-- The error taxonomy of src/error.rs, restricted to the variants the
embedded code paths construct. -/
inductive Err where
  | yaml (msg : String)
  | openai (msg : String)
  | markdownParse (path : MPath) (reason : String)
  | config (msg : String)
  | wechat (msg : String)
  | generic (msg : String)
deriving DecidableEq, Repr

/-- Model of the `Display` rendering of src/error.rs (the `#[error(...)]`
format strings), used where the source formats an error into a message. -/
def Err.display : Err → String
  | .yaml m => "YAML error: " ++ m
  | .openai m => "OpenAI API error: " ++ m
  | .markdownParse _ r => "Markdown parsing error: " ++ r
  | .config m => "Configuration error: " ++ m
  | .wechat m => "WeChat API error: " ++ m
  | .generic m => "Operation failed: " ++ m

/-! ## YAML values and the Frontmatter model (src/models.rs) -/

/-- A scalar YAML value, as appears in frontmatter fields and extension
entries. -/
inductive Scalar where
  | null
  | bool (b : Bool)
  | str (s : String)
deriving DecidableEq, Repr

/-- Model of `serde_yaml::Value` as used for the flattened `other` field of
`Frontmatter`: null (the Rust `Default`), a scalar, or a string-keyed mapping
with scalar values. Nested mappings inside extension entries are not
exercised by any embedded code path and are not modelled. -/
inductive YamlVal where
  | null
  | bool (b : Bool)
  | str (s : String)
  | mapping (entries : List (String × Scalar))
deriving DecidableEq, Repr

/-- The frontmatter structure of src/models.rs: typed fields plus the
`#[serde(flatten)]` catch-all `other`. -/
structure Frontmatter where
  title : Option String
  published : Option String
  cover : Option String
  theme : Option String
  code : Option String
  description : String
  other : YamlVal
deriving DecidableEq, Repr

/-- `Frontmatter::default()`: every option empty, empty description, and the
flattened `other` value `Null` (the `serde_yaml::Value` default). -/
def Frontmatter.default : Frontmatter :=
  ⟨none, none, none, none, none, "", .null⟩

/-- `Frontmatter::set_published` (src/models.rs). -/
def Frontmatter.set_published (fm : Frontmatter) (status : String) : Frontmatter :=
  { fm with published := some status }

/-- `Frontmatter::set_cover` (src/models.rs). -/
def Frontmatter.set_cover (fm : Frontmatter) (cover : String) : Frontmatter :=
  { fm with cover := some cover }

/-- `Frontmatter::is_published` (src/models.rs lines 525-540): the string
status `"true"` or its quoted variant, or a boolean `true` stored under the
`published` key of the flattened mapping. -/
def Frontmatter.is_published (fm : Frontmatter) : Bool :=
  if fm.published = some "true" ∨ fm.published = some "\"true\"" then
    true
  else
    match fm.other with
    | .mapping m =>
      match m.lookup "published" with
      | some (.bool true) => true
      | _ => false
    | _ => false

/-- `VALID_THEMES` (src/models.rs). -/
def valid_themes : List String :=
  ["default", "lapis", "maize", "orangeheart", "phycat", "pie", "purple", "rainbow"]

/-- `VALID_CODE_HIGHLIGHTERS` (src/models.rs). -/
def valid_code_highlighters : List String :=
  ["github", "github-dark", "vscode", "atom-one-light", "atom-one-dark",
   "solarized-light", "solarized-dark", "monokai", "dracula", "xcode"]

/-- `is_valid_theme` (src/models.rs). -/
def is_valid_theme (t : String) : Bool := valid_themes.contains t

/-- `is_valid_code_highlighter` (src/models.rs). -/
def is_valid_code_highlighter (c : String) : Bool := valid_code_highlighters.contains c

/-- Second half of `Frontmatter::validate`: the code highlighter whitelist
check. -/
def Frontmatter.validate_code (fm : Frontmatter) : Except Err Unit :=
  match fm.code with
  | some c =>
    if is_valid_code_highlighter c then .ok ()
    else .error (.config ("Invalid code highlighter \x27" ++ c ++
      "\x27. Available highlighters: " ++ String.intercalate ", " valid_code_highlighters))
  | none => .ok ()

/-- `Frontmatter::validate` (src/models.rs): theme whitelist check, then code
highlighter whitelist check. -/
def Frontmatter.validate (fm : Frontmatter) : Except Err Unit :=
  match fm.theme with
  | some t =>
    if is_valid_theme t then fm.validate_code
    else .error (.config ("Invalid theme \x27" ++ t ++
      "\x27. Available themes: " ++ String.intercalate ", " valid_themes))
  | none => fm.validate_code

/-! ## The markdown split (src/markdown.rs, the regex `^---\n(.*?)\n---\n(.*)$`) -/

/-- The closing delimiter pattern `"\n---\n"` searched for by the lazy group
of the frontmatter regex. -/
def sepChars : List Char := ['\n', '-', '-', '-', '\n']

/-- The opening delimiter line `"---\n"` anchoring the frontmatter regex. -/
def openDelim : List Char := ['-', '-', '-', '\n']

/-- Scan for the leftmost occurrence of `"\n---\n"` (the lazy `(.*?)` of the
regex): returns the text before it and the text after it. -/
def splitAux : List Char → Option (List Char × List Char)
  | [] => none
  | c :: rest =>
    if sepChars.isPrefixOf (c :: rest) then some ([], rest.drop 4)
    else (splitAux rest).map (fun pr => (c :: pr.1, pr.2))

/-- Model of the anchored regex match of `parse_markdown`: the content must
start with the delimiter line `"---\n"`, then the lazy group runs to the
leftmost `"\n---\n"`; everything after is the body. -/
def splitFrontmatter (content : List Char) : Option (List Char × List Char) :=
  if openDelim.isPrefixOf content then splitAux (content.drop 4) else none

/-! ## The YAML codec boundary

`serde_yaml` is an external library (an external collaborator per the spec);
the markdown codec is parameterized by it. -/

/-- The serde_yaml operations `parse_markdown`/`format_markdown` use:
`to_string` (struct to a newline-terminated block) and `from_str`. -/
structure YamlCodec where
  ser : Frontmatter → Except String (List Char)
  de : List Char → Except String Frontmatter

/-- `parse_markdown` (src/markdown.rs lines 62-81): regex split, YAML
deserialization of group 1, whitelist validation, body is group 2 verbatim;
with no regex match, default frontmatter and the whole input as body. -/
def parse_markdown (c : YamlCodec) (content : List Char) :
    Except Err (Frontmatter × List Char) :=
  match splitFrontmatter content with
  | some (yamlStr, body) =>
    match c.de yamlStr with
    | .error e => .error (.yaml e)
    | .ok fm =>
      match fm.validate with
      | .error e => .error e
      | .ok _ => .ok (fm, body)
  | none => .ok (Frontmatter.default, content)

/-- `format_markdown` (src/markdown.rs lines 142-146):
`format!("---\n{yaml}---\n{body}")`. -/
def format_markdown (c : YamlCodec) (fm : Frontmatter) (body : List Char) :
    Except Err (List Char) :=
  match c.ser fm with
  | .error e => .error (.yaml e)
  | .ok y => .ok (openDelim ++ y ++ openDelim ++ body)

/-- `update_frontmatter` (src/markdown.rs lines 183-193): re-read the file,
apply the mutator to the freshly parsed frontmatter, write back. Takes and
returns the disk content. -/
def update_frontmatter (c : YamlCodec) (disk : List Char)
    (updater : Frontmatter → Frontmatter) : Except Err (List Char) :=
  match parse_markdown c disk with
  | .error e => .error e
  | .ok (fm, body) => format_markdown c (updater fm) body

/-! ## A concrete YAML codec instance

Modelled from the spec: the "structured (YAML-equivalent) block" codec, i.e.
the external serde_yaml library as configured by the `#[serde]` attributes of
`Frontmatter` (fields skipped when absent, `other` flattened). Restricted to
single-line scalar entries, which covers every value exercised by the
concrete runs below. -/

/-- The single-quote character, used by the YAML scalar quoting model. -/
def quoteChar : Char := Char.ofNat 39

/-- Whether serde_yaml would quote this scalar string (it must not be read
back as a boolean/null or break the line structure). -/
def needsQuote (s : String) : Bool :=
  s = "" || s = "true" || s = "false" || s = "null" || s = "~" ||
  s.toList.any (fun ch => ch = ':' || ch = '\n' || ch = '#' || ch = quoteChar)

/-- Emit a string scalar, single-quoted when needed. -/
def serStrScalar (s : String) : List Char :=
  if needsQuote s then quoteChar :: s.toList ++ [quoteChar] else s.toList

/-- Emit one scalar value. -/
def serScalar : Scalar → List Char
  | .str s => serStrScalar s
  | .bool true => "true".toList
  | .bool false => "false".toList
  | .null => "null".toList

/-- One `key: value` line of a YAML block. -/
def fieldLine (k : String) (v : List Char) : List Char :=
  k.toList ++ ':' :: ' ' :: (v ++ ['\n'])

/-- The lines for the typed fields of a frontmatter, in struct order,
omitting absent options and an empty description. -/
def baseLines (fm : Frontmatter) : List (List Char) :=
  (match fm.title with | some t => [fieldLine "title" (serStrScalar t)] | none => []) ++
  (match fm.published with | some p => [fieldLine "published" (serStrScalar p)] | none => []) ++
  (match fm.cover with | some cv => [fieldLine "cover" (serStrScalar cv)] | none => []) ++
  (match fm.theme with | some t => [fieldLine "theme" (serStrScalar t)] | none => []) ++
  (match fm.code with | some cd => [fieldLine "code" (serStrScalar cd)] | none => []) ++
  (if fm.description = "" then [] else [fieldLine "description" (serStrScalar fm.description)])

/-- Serialize a frontmatter to a newline-terminated YAML block: typed fields
first, then the flattened extension entries; an empty map prints as `{}`;
flattening a non-map, non-null value is a serde error. -/
def miniYamlSer (fm : Frontmatter) : Except String (List Char) :=
  match fm.other with
  | .bool _ => .error "can only flatten structs and maps"
  | .str _ => .error "can only flatten structs and maps"
  | .null =>
    let ls := baseLines fm
    if ls = [] then .ok "{}\n".toList else .ok ls.flatten
  | .mapping m =>
    let ls := baseLines fm ++ m.map (fun kv => fieldLine kv.1 (serScalar kv.2))
    if ls = [] then .ok "{}\n".toList else .ok ls.flatten

/-- Split a character list on newlines. -/
def splitOnNl : List Char → List (List Char) := splitOnChar '\n'

/-- Split one `key: value` line at the first `": "`. -/
def splitKV : List Char → Option (List Char × List Char)
  | [] => none
  | ':' :: ' ' :: rest => some ([], rest)
  | ch :: rest => (splitKV rest).map (fun pr => (ch :: pr.1, pr.2))

/-- Read back one scalar: single-quoted text is a string; plain `true`,
`false`, `null`, `~` are a boolean or null; anything else is a plain string. -/
def parseScalar (v : List Char) : Scalar :=
  match v with
  | q :: (_ :: _) =>
    if q = quoteChar ∧ v.getLast? = some quoteChar then
      .str (String.mk ((v.drop 1).dropLast))
    else if v = "true".toList then .bool true
    else if v = "false".toList then .bool false
    else if v = "null".toList ∨ v = "~".toList then .null
    else .str (String.mk v)
  | _ =>
    if v = "~".toList then .null else .str (String.mk v)

/-- Fold the parsed lines into the struct: known keys populate typed fields
(a string is required there), any other key accumulates into the flattened
extension mapping, in order. -/
def deLines : List (List Char) → Frontmatter → List (String × Scalar) →
    Except String Frontmatter
  | [], fm, ext => .ok { fm with other := .mapping ext }
  | line :: rest, fm, ext =>
    match splitKV line with
    | none => .error "invalid YAML line"
    | some (k, v) =>
      let key := String.mk k
      let val := parseScalar v
      if key = "title" then
        match val with
        | .str s => deLines rest { fm with title := some s } ext
        | _ => .error "invalid type for title"
      else if key = "published" then
        match val with
        | .str s => deLines rest { fm with published := some s } ext
        | _ => .error "invalid type for published"
      else if key = "cover" then
        match val with
        | .str s => deLines rest { fm with cover := some s } ext
        | _ => .error "invalid type for cover"
      else if key = "theme" then
        match val with
        | .str s => deLines rest { fm with theme := some s } ext
        | _ => .error "invalid type for theme"
      else if key = "code" then
        match val with
        | .str s => deLines rest { fm with code := some s } ext
        | _ => .error "invalid type for code"
      else if key = "description" then
        match val with
        | .str s => deLines rest { fm with description := s } ext
        | _ => .error "invalid type for description"
      else
        deLines rest fm (ext ++ [(key, val)])

/-- Deserialize a YAML block (without its trailing newline, exactly as the
regex group hands it over). The flattened catch-all always reads back as a
mapping, possibly empty. -/
def miniYamlDe (y : List Char) : Except String Frontmatter :=
  if y = [] ∨ y = "{}".toList then
    .ok { Frontmatter.default with other := .mapping [] }
  else
    deLines (splitOnNl y) Frontmatter.default []

/-- The concrete codec instance used for concrete runs. -/
def miniYaml : YamlCodec := ⟨miniYamlSer, miniYamlDe⟩

/-- Modelled from the spec: "the extension map holds a boolean `true` under
the key `published`" — the spec-side reading of the extension check inside
`is_published`, to be compared against the source translation. -/
def extensionPublishedBoolTrue (fm : Frontmatter) : Bool :=
  match fm.other with
  | .mapping m => decide (m.lookup "published" = some (.bool true))
  | _ => false

/-! ## Cover path resolution and the publication orchestrator (src/wechat.rs) -/

/-- `resolve_and_check_cover_path` (src/wechat.rs lines 428-444): an absolute
cover reference stands alone; a relative one is joined to the markdown file's
parent directory (falling back to `Path::new(".")` when there is none); the
second component is the filesystem existence check. -/
def resolve_and_check_cover_path (fsEx : MPath → Bool)
    (markdown_file_path : MPath) (cover_filename : String) : MPath × Bool :=
  let cover := MPath.ofString cover_filename
  let cover_path :=
    if cover.absolute then cover
    else (match markdown_file_path.parent with
          | some d => d
          | none => MPath.curDir).join cover
  (cover_path, fsEx cover_path)

/-- The externally observable events of one orchestrator run. -/
inductive Event where
  | readFile (p : MPath)
  | genCoverAuto
  | genCoverToPath (target : MPath)
  | writeFile (p : MPath) (content : List Char)
  | uploadCall (p : MPath)
deriving DecidableEq, Repr

/-- The reported outcome of a run that returned `Ok`. -/
inductive Outcome where
  | skipped
  | uploaded
deriving DecidableEq, Repr

/-- The injected collaborators of the pipeline: the YAML codec, whether an AI
client is configured, the filesystem existence oracle, the two cover
generation entry points of the AI client (auto filename, and to an explicit
target path), and the publish client's `upload`. -/
structure PipelineEnv where
  codec : YamlCodec
  hasAI : Bool
  fsEx : MPath → Bool
  gen_auto : List Char → MPath → Except String String
  gen_to_path : List Char → MPath → Except String Unit
  upload : MPath → Except String String

/-- `DefaultCoverImageProcessor::ensure_cover_image` (src/wechat.rs lines
74-132): without an AI client, `Ok(None)`; with no declared cover, generate
with an auto filename, degrading to `Ok(None)` on failure; with a declared
cover whose resolved path is missing, generate to that path, returning the
declared name on success and `Ok(None)` on failure; with the file present,
return the declared name. Also records the generation attempts. -/
def ensure_cover_image (env : PipelineEnv) (content : List Char) (md : MPath)
    (cover_filename : Option String) : List Event × Except Err (Option String) :=
  if env.hasAI = false then ([], .ok none)
  else
    match cover_filename with
    | none =>
      match env.gen_auto content md with
      | .ok f => ([.genCoverAuto], .ok (some f))
      | .error _ => ([.genCoverAuto], .ok none)
    | some f =>
      let rc := resolve_and_check_cover_path env.fsEx md f
      if rc.2 then ([], .ok (some f))
      else
        match env.gen_to_path content rc.1 with
        | .ok _ => ([.genCoverToPath rc.1], .ok (some f))
        | .error _ => ([.genCoverToPath rc.1], .ok none)

/-- The cover section of `upload_file` (src/wechat.rs lines 239-345): when an
AI client is configured, decide whether generation is needed (no declared
cover, or declared but missing on disk), run `ensure_cover_image`, and on a
returned name update the in-memory frontmatter and flag it for the
write-before-upload; on `None` keep the original cover field. Without an AI
client only a warning may be printed. -/
def cover_phase (env : PipelineEnv) (path : MPath) (fm : Frontmatter)
    (body : List Char) : List Event × Except Err (Frontmatter × Bool) :=
  if env.hasAI then
    let should_generate : Bool :=
      match fm.cover with
      | none => true
      | some f => !(resolve_and_check_cover_path env.fsEx path f).2
    if should_generate then
      match ensure_cover_image env body path fm.cover with
      | (evs, .error e) => (evs, .error e)
      | (evs, .ok (some f)) => (evs, .ok (fm.set_cover f, true))
      | (evs, .ok none) => (evs, .ok (fm, false))
    else ([], .ok (fm, false))
  else ([], .ok (fm, false))

/-- `upload_file` (src/wechat.rs lines 215-416): parse, skip when already
published and not forced, run the cover section, persist a cover update
before uploading, call the publish client, and on success update the
`published` field through `update_frontmatter` (which re-reads the file).
Returns the final disk content, the event trace, and the outcome. -/
def upload_file (env : PipelineEnv) (path : MPath) (force : Bool)
    (disk : List Char) : List Char × List Event × Except Err Outcome :=
  match parse_markdown env.codec disk with
  | .error e => (disk, [.readFile path], .error e)
  | .ok (fm, body) =>
    if !force && fm.is_published then
      (disk, [.readFile path], .ok .skipped)
    else
      match cover_phase env path fm body with
      | (evC, .error e) => (disk, .readFile path :: evC, .error e)
      | (evC, .ok (fm1, cover_updated)) =>
        let writeStep : Except Err (List Char × List Event) :=
          if cover_updated then
            match format_markdown env.codec fm1 body with
            | .error e => .error e
            | .ok c2 => .ok (c2, [.writeFile path c2])
          else .ok (disk, [])
        match writeStep with
        | .error e => (disk, .readFile path :: evC, .error e)
        | .ok (disk2, evW) =>
          match env.upload path with
          | .error e =>
            (disk2, .readFile path :: evC ++ evW ++ [.uploadCall path],
             .error (.wechat ("WeChat upload failed: " ++ (Err.wechat e).display)))
          | .ok _draft_id =>
            match update_frontmatter env.codec disk2
                (fun g => g.set_published "draft") with
            | .error e =>
              (disk2, .readFile path :: evC ++ evW ++ [.uploadCall path, .readFile path],
               .error e)
            | .ok disk3 =>
              (disk3, .readFile path :: evC ++ evW ++
                 [.uploadCall path, .readFile path, .writeFile path disk3],
               .ok .uploaded)

/-- The loop body of `process_directory` (src/wechat.rs lines 174-178): each
entry is passed to `upload_file` with `force = false`, and the `?` operator
propagates the first error, ending the loop. Returns the list of
(path, final content) pairs for the files that were processed. -/
def process_files (env : PipelineEnv) (fs : MPath → List Char) :
    List MPath → List (MPath × List Char) × Except Err Unit
  | [] => ([], .ok ())
  | p :: rest =>
    match upload_file env p false (fs p) with
    | (final, _, .error e) => ([(p, final)], .error e)
    | (final, _, .ok _) =>
      let r := process_files env fs rest
      ((p, final) :: r.1, r.2)

/-- `process_directory` (src/wechat.rs lines 153-179): keep the walked
entries whose extension is `md` (traversal errors are dropped by
`filter_map(|e| e.ok())`), then run the loop. -/
def process_directory (env : PipelineEnv) (entries : List MPath)
    (fs : MPath → List Char) : List (MPath × List Char) × Except Err Unit :=
  process_files env fs (entries.filter (fun p => p.extension = some "md"))

/-! ## Configuration resolution (src/models.rs) -/

/-- `WeChatAccount` (src/models.rs). -/
structure WeChatAccount where
  name : String
  app_id : String
  app_secret : String
  description : Option String
deriving DecidableEq, Repr

/-- `AiProviderConfig` (src/models.rs): the AI block of a config file. -/
structure AiProviderConfig where
  provider : String
  api_key : String
  base_url : Option String
deriving DecidableEq, Repr

/-- `AiProvider` (src/models.rs). -/
inductive AiProvider where
  | openAI (api_key : String) (base_url : Option String)
  | gemini (api_key : String) (base_url : Option String)
deriving DecidableEq, Repr

/-- `GlobalSettings` (src/models.rs). -/
structure GlobalSettings where
  verbose : Option Bool
  default_theme : Option String
  default_code_highlighter : Option String
deriving DecidableEq, Repr

/-- `ConfigFile` (src/models.rs), as it stands after deserialization. The
`accounts` HashMap is modelled by its key-value pairs in iteration order;
`HashMap` iteration order is unspecified, so it is any permutation of the
accounts the file declares. -/
structure ConfigFile where
  accounts : List (String × WeChatAccount)
  default_account : Option String
  ai_provider : Option AiProviderConfig
  settings : Option GlobalSettings
deriving DecidableEq, Repr

/-- `Config` (src/models.rs). -/
structure Config where
  wechat_account : WeChatAccount
  available_accounts : List (String × WeChatAccount)
  ai_provider : Option AiProvider
  verbose : Bool
  config_file_path : Option String
deriving DecidableEq, Repr

/-- `Config::from_file` (src/models.rs lines 185-255), beginning after the
file has been read and deserialized into a `ConfigFile` (file I/O and the
serde_yaml/serde_json layer are external): empty account set check, account
selection (requested name, else the file's default, else the first key the
HashMap yields), lookup with the listing error, and AI provider resolution
(config-file block first, else the environment fallback, injected here as
`env_ai`). -/
def Config.from_file (cf : ConfigFile) (config_path : String)
    (account_name : Option String) (env_ai : Option AiProvider) :
    Except Err Config :=
  if cf.accounts.isEmpty then
    .error (.config "No WeChat accounts configured")
  else
    let selected : Option String :=
      match account_name with
      | some n => some n
      | none =>
        match cf.default_account with
        | some d => some d
        | none => cf.accounts.head?.map Prod.fst
    match selected with
    | none => .error (.config "No account specified and no default account set")
    | some selName =>
      match cf.accounts.lookup selName with
      | none =>
        .error (.config ("Account \x27" ++ selName ++
          "\x27 not found in configuration. Available accounts: " ++
          String.intercalate ", " (cf.accounts.map Prod.fst)))
      | some acct =>
        let aiRes : Except Err (Option AiProvider) :=
          match cf.ai_provider with
          | some ai =>
            if ai.provider.toLower = "openai" then
              .ok (some (.openAI ai.api_key ai.base_url))
            else if ai.provider.toLower = "gemini" then
              .ok (some (.gemini ai.api_key ai.base_url))
            else
              .error (.config ("Unsupported AI provider: " ++ ai.provider))
          | none => .ok env_ai
        match aiRes with
        | .error e => .error e
        | .ok aiOpt =>
          .ok ⟨acct, cf.accounts, aiOpt,
               ((cf.settings.bind GlobalSettings.verbose).getD false),
               some config_path⟩

/-! ## Scene description generation (src/providers.rs lines 242-306) -/

/-- UTF-8 byte length of a text, as Rust's `str::len`. -/
def byteLen (l : List Char) : Nat := (l.map Char.utf8Size).sum

/-- Model of the Rust byte slice `&content[..n]`: take characters while their
UTF-8 sizes fit exactly into `n` bytes; `none` models the panic raised when
byte index `n` is not a character boundary (or is out of range). -/
def take_bytes : List Char → Nat → Option (List Char)
  | _, 0 => some []
  | [], _ + 1 => none
  | ch :: rest, n + 1 =>
    if ch.utf8Size ≤ n + 1 then
      (take_bytes rest (n + 1 - ch.utf8Size)).map (fun t => ch :: t)
    else none

/-- The content truncation of `generate_scene_description`:
`if content.len() > 2000 { &content[..2000] } else { content }`. -/
def truncate_content (content : List Char) : Option (List Char) :=
  if byteLen content > 2000 then take_bytes content 2000 else some content

/-- Whitespace, as trimmed by `str::trim`. -/
def isWs (c : Char) : Bool := c = ' ' || c = '\n' || c = '\t' || c = '\r'

/-- Model of `str::trim`: drop whitespace at both ends. -/
def trimChars (l : List Char) : List Char :=
  ((l.dropWhile isWs).reverse.dropWhile isWs).reverse

/-- The fixed fallback scene description substituted for an empty extraction
(src/providers.rs lines 301-303). -/
def fallback_scene_description : String :=
  "A serene landscape with rolling hills under a soft, dreamy sky filled with gentle clouds. The scene evokes a sense of peaceful contemplation and infinite possibilities."

/-- `generate_scene_description` (src/providers.rs lines 242-306), with the
HTTP round trip injected: `respond` maps the sent (truncated) content to the
request outcome — an HTTP-level error, or the text field extracted from the
response JSON (`None` when the field is absent, which `unwrap_or("")` turns
into the empty string). The outer `Option` is `none` exactly when the byte
slice panics. -/
def generate_scene_description
    (respond : List Char → Except String (Option String))
    (content : List Char) : Option (Except Err String) :=
  match truncate_content content with
  | none => none
  | some sent =>
    some (match respond sent with
      | .error e => .error (.openai e)
      | .ok extracted =>
        let scene := String.mk (trimChars (extracted.getD "").toList)
        .ok (if scene = "" then fallback_scene_description else scene))

deriving instance DecidableEq for Except

/-! # Theorems -/

/-! ## Lemmas about the frontmatter regex split -/

theorem sep_eq_cons : sepChars = '\n' :: openDelim := rfl

theorem splitAux_eq_none_of_no_sep (l : List Char) (h : ¬ sepChars <:+: l) :
    splitAux l = none := by
  induction l with
  | nil => rfl
  | cons c rest ih =>
    have hnp : ¬ (sepChars.isPrefixOf (c :: rest)) = true := by
      rw [List.isPrefixOf_iff_prefix]
      exact fun hp => h hp.isInfix
    have hrest : ¬ sepChars <:+: rest := fun hin => h (List.infix_cons hin)
    simp only [splitAux, if_neg hnp, ih hrest, Option.map_none']

theorem splitAux_sep (b : List Char) : splitAux (sepChars ++ b) = some ([], b) := by
  have hpre : (sepChars.isPrefixOf ('\n' :: '-' :: '-' :: '-' :: '\n' :: b)) = true := by
    rw [List.isPrefixOf_iff_prefix]
    exact ⟨b, rfl⟩
  show splitAux ('\n' :: '-' :: '-' :: '-' :: '\n' :: b) = some ([], b)
  simp only [splitAux]
  rw [if_pos hpre]
  rfl

theorem splitAux_append (g1 b : List Char)
    (h : ¬ sepChars <:+: (g1 ++ sepChars.take 4)) :
    splitAux (g1 ++ (sepChars ++ b)) = some (g1, b) := by
  induction g1 with
  | nil => simpa using splitAux_sep b
  | cons c t ih =>
    have hni : ¬ sepChars <:+: (t ++ sepChars.take 4) := by
      intro hin
      exact h (List.infix_cons hin)
    have htake : sepChars.take 4 <+: (sepChars ++ b) :=
      (List.take_prefix 4 sepChars).trans (List.prefix_append _ _)
    obtain ⟨w, hw⟩ := htake
    have htgt : ((c :: t) ++ sepChars.take 4) <+: ((c :: t) ++ (sepChars ++ b)) :=
      ⟨w, by rw [List.append_assoc, hw]⟩
    have hlen : sepChars.length ≤ ((c :: t) ++ sepChars.take 4).length := by
      simp [sepChars]
    have hnp : ¬ (sepChars.isPrefixOf (c :: (t ++ (sepChars ++ b)))) = true := by
      rw [List.isPrefixOf_iff_prefix]
      intro hp
      rw [← List.cons_append] at hp
      exact h (List.prefix_of_prefix_length_le hp htgt hlen).isInfix
    show splitAux (c :: (t ++ (sepChars ++ b))) = some (c :: t, b)
    simp only [splitAux]
    rw [if_neg hnp, ih hni]
    rfl

/-! ## C7: parsing content without a leading delimiter pair -/

/-- C7: for every string that does not begin with a delimiter pair (the
opening `---` line followed eventually by a closing `---` line), and for any
YAML codec, `parse_markdown` returns the default (empty) frontmatter and the
entire input as the body, never an error. -/
theorem c7_no_frontmatter_default (c : YamlCodec) (s : List Char)
    (h : ¬ (openDelim <+: s ∧ sepChars <:+: s.drop 4)) :
    parse_markdown c s = .ok (Frontmatter.default, s) := by
  unfold parse_markdown splitFrontmatter
  by_cases hp : (openDelim.isPrefixOf s) = true
  · rw [if_pos hp]
    have h2 : ¬ sepChars <:+: s.drop 4 := fun hin =>
      h ⟨(List.isPrefixOf_iff_prefix).1 hp, hin⟩
    rw [splitAux_eq_none_of_no_sep _ h2]
  · rw [if_neg hp]

/-- Witness for C7 at a concrete frontmatter-free document. -/
theorem c7_no_frontmatter_default_witness :
    parse_markdown miniYaml ("# Title\n\nSome content.".toList) =
      .ok (Frontmatter.default, "# Title\n\nSome content.".toList) :=
  c7_no_frontmatter_default miniYaml _ (by decide)

/-! ## C2: the parse/format round trip -/

/-- C2 (amended): the round trip holds for every metadata value that passes
whitelist validation and whose YAML block round-trips through the codec
without containing a delimiter sequence; parsing the formatted document
returns exactly the metadata (every field, the extension mapping included)
and the body verbatim. -/
theorem c2_parse_format_roundtrip (c : YamlCodec) (m : Frontmatter)
    (b g1 : List Char)
    (hval : m.validate = .ok ())
    (hser : c.ser m = .ok (g1 ++ ['\n']))
    (hde : c.de g1 = .ok m)
    (hsep : ¬ sepChars <:+: (g1 ++ sepChars.take 4)) :
    format_markdown c m b = .ok (openDelim ++ g1 ++ sepChars ++ b) ∧
    parse_markdown c (openDelim ++ g1 ++ sepChars ++ b) = .ok (m, b) := by
  constructor
  · unfold format_markdown
    rw [hser]
    simp [sep_eq_cons, List.append_assoc]
  · unfold parse_markdown splitFrontmatter
    have hp : (openDelim.isPrefixOf (openDelim ++ g1 ++ sepChars ++ b)) = true := by
      rw [List.isPrefixOf_iff_prefix]
      exact ⟨g1 ++ sepChars ++ b, by simp [List.append_assoc]⟩
    rw [if_pos hp]
    have hdrop : (openDelim ++ g1 ++ sepChars ++ b).drop 4 = g1 ++ (sepChars ++ b) := by
      have h4 := List.drop_left openDelim (g1 ++ (sepChars ++ b))
      rw [show openDelim.length = 4 from rfl] at h4
      simpa using h4
    rw [hdrop, splitAux_append g1 b hsep]
    simp only [hde, hval]

/-- Witness for C2 (amended) at a concrete valid metadata value with an
(empty) extension mapping. -/
theorem c2_parse_format_roundtrip_witness :
    format_markdown miniYaml ⟨some "t", none, none, none, none, "", .mapping []⟩
        ("B".toList) =
      .ok (openDelim ++ "title: t".toList ++ sepChars ++ "B".toList) ∧
    parse_markdown miniYaml (openDelim ++ "title: t".toList ++ sepChars ++ "B".toList) =
      .ok (⟨some "t", none, none, none, none, "", .mapping []⟩, "B".toList) :=
  c2_parse_format_roundtrip miniYaml _ _ _ (by decide) (by decide) (by decide) (by decide)

/-- Counterexample for C2 as stated: a metadata value whose `theme` is outside
the whitelist formats successfully, but parsing the formatted document fails
with the validation error (parse_markdown validates after deserializing), so
`parse (format m b) = (m, b)` does not hold for every metadata value. -/
theorem c2_roundtrip_counterexample :
    format_markdown miniYaml ⟨none, none, none, some "not-a-theme", none, "", .mapping []⟩
        ("B".toList) = .ok ("---\ntheme: not-a-theme\n---\nB".toList) ∧
    parse_markdown miniYaml ("---\ntheme: not-a-theme\n---\nB".toList) =
      .error (.config ("Invalid theme \x27not-a-theme\x27. Available themes: " ++
        "default, lapis, maize, orangeheart, phycat, pie, purple, rainbow")) ∧
    parse_markdown miniYaml ("---\ntheme: not-a-theme\n---\nB".toList) ≠
      .ok (⟨none, none, none, some "not-a-theme", none, "", .mapping []⟩, "B".toList) := by
  refine ⟨by decide, by decide, by decide⟩

/-! ## C3: the is_published characterization -/

theorem lookup_bool_match_eq (x : Option Scalar) :
    (match x with | some (.bool true) => true | _ => false) =
      decide (x = some (.bool true)) := by
  rcases x with _ | s
  · rfl
  · rcases s with _ | b | s
    · rfl
    · cases b <;> rfl
    · rfl

/-- C3: `is_published` is true exactly when the `published` field is the
string `"true"` or its quoted variant, or the extension mapping holds a
boolean `true` under the key `published`; in particular it is false for
`"draft"`, `"false"`, an absent field, and the empty string. -/
theorem c3_is_published_spec :
    (∀ fm : Frontmatter,
      fm.is_published =
        (decide (fm.published = some "true") ||
         decide (fm.published = some "\"true\"") ||
         extensionPublishedBoolTrue fm)) ∧
    Frontmatter.default.is_published = false ∧
    ({ Frontmatter.default with published := some "draft" } : Frontmatter).is_published = false ∧
    ({ Frontmatter.default with published := some "false" } : Frontmatter).is_published = false ∧
    ({ Frontmatter.default with published := some "" } : Frontmatter).is_published = false ∧
    ({ Frontmatter.default with published := some "true" } : Frontmatter).is_published = true ∧
    ({ Frontmatter.default with published := some "\"true\"" } : Frontmatter).is_published = true ∧
    ({ Frontmatter.default with
        other := .mapping [("published", .bool true)] } : Frontmatter).is_published = true := by
  refine ⟨fun fm => ?_, by decide, by decide, by decide, by decide, by decide, by decide, by decide⟩
  unfold Frontmatter.is_published extensionPublishedBoolTrue
  by_cases h1 : fm.published = some "true"
  · simp [h1]
  · by_cases h2 : fm.published = some "\"true\""
    · simp [h1, h2]
    · rw [if_neg (by tauto)]
      simp only [h1, h2, decide_eq_true_eq, decide_False, Bool.false_or]
      rcases hfm : fm.other with _ | bb | ss | mm <;> simp [hfm, lookup_bool_match_eq]

/-! ## C4: the skip path has no further side effects -/

/-- C4: when the parsed metadata indicates already-published and force is
off, the orchestrator reports `skipped` after the single read: the disk
content is byte-identical and the trace holds no generation call, no write
and no upload call. -/
theorem c4_skip_no_side_effects (env : PipelineEnv) (path : MPath)
    (disk : List Char) (fm : Frontmatter) (body : List Char)
    (hparse : parse_markdown env.codec disk = .ok (fm, body))
    (hpub : fm.is_published = true) :
    upload_file env path false disk = (disk, [.readFile path], .ok .skipped) := by
  unfold upload_file
  rw [hparse]
  simp [hpub]

/-- Witness for C4: a concrete published article under an environment whose
oracles would generate covers and accept uploads; none of them is reached. -/
theorem c4_skip_no_side_effects_witness :
    upload_file
      ⟨miniYaml, true, fun _ => false, fun _ _ => .ok "gen.png",
       fun _ _ => .ok (), fun _ => .ok "draft1"⟩
      ⟨false, ["a.md"]⟩ false ("---\npublished: \x27true\x27\n---\nB".toList) =
      ("---\npublished: \x27true\x27\n---\nB".toList,
       [.readFile ⟨false, ["a.md"]⟩], .ok .skipped) :=
  c4_skip_no_side_effects _ _ _
    ⟨none, some "true", none, none, none, "", .mapping []⟩ ("B".toList)
    (by decide) (by decide)

/-! ## C5: the final write after a successful upload -/

/-- C5: after a successful publish call, the final write is
`update_frontmatter` applied to the disk content as it stands at that moment
(here `disk2`, the content persisted by the write-before-upload): the file is
re-read, and the mutation touches only the `published` field — every other
field of the re-read frontmatter, the just-written `cover` included, is
carried into the final content unchanged. Stated on the auto-generated-cover
success path. -/
theorem c5_final_write_mutates_only_published (env : PipelineEnv)
    (path : MPath) (force : Bool) (disk : List Char) (fm : Frontmatter)
    (body : List Char) (f : String) (disk2 : List Char) (fm2 : Frontmatter)
    (body2 : List Char) (y : List Char) (d : String)
    (hparse : parse_markdown env.codec disk = .ok (fm, body))
    (hskip : (!force && fm.is_published) = false)
    (hai : env.hasAI = true)
    (hcov : fm.cover = none)
    (hgen : env.gen_auto body path = .ok f)
    (hfmt : format_markdown env.codec (fm.set_cover f) body = .ok disk2)
    (hup : env.upload path = .ok d)
    (hparse2 : parse_markdown env.codec disk2 = .ok (fm2, body2))
    (hser2 : env.codec.ser (fm2.set_published "draft") = .ok y) :
    upload_file env path force disk =
      (openDelim ++ y ++ openDelim ++ body2,
       [.readFile path, .genCoverAuto, .writeFile path disk2, .uploadCall path,
        .readFile path, .writeFile path (openDelim ++ y ++ openDelim ++ body2)],
       .ok .uploaded) ∧
    update_frontmatter env.codec disk2 (fun g => g.set_published "draft") =
      .ok (openDelim ++ y ++ openDelim ++ body2) ∧
    (fm2.set_published "draft").title = fm2.title ∧
    (fm2.set_published "draft").cover = fm2.cover ∧
    (fm2.set_published "draft").theme = fm2.theme ∧
    (fm2.set_published "draft").code = fm2.code ∧
    (fm2.set_published "draft").description = fm2.description ∧
    (fm2.set_published "draft").other = fm2.other ∧
    (fm2.set_published "draft").published = some "draft" := by
  have hupd : update_frontmatter env.codec disk2 (fun g => g.set_published "draft") =
      .ok (openDelim ++ y ++ openDelim ++ body2) := by
    unfold update_frontmatter format_markdown
    simp only [hparse2, hser2]
  refine ⟨?_, hupd, rfl, rfl, rfl, rfl, rfl, rfl, rfl⟩
  unfold upload_file cover_phase ensure_cover_image
  simp only [hparse, hskip, hai, hcov, hgen, hfmt, hup, hupd,
    Bool.false_eq_true, if_false, if_true, Bool.not_false, Bool.true_eq_false]
  rfl

/-- Witness for C5 on a concrete run in which the cover is generated,
persisted before upload, and survives the final status write. -/
theorem c5_final_write_mutates_only_published_witness :
    upload_file
        ⟨miniYaml, true, fun _ => false, fun _ _ => .ok "gen.png",
         fun _ _ => .error "x", fun _ => .ok "draft9"⟩
        ⟨false, ["p", "a.md"]⟩ false ("---\ndescription: hi\n---\nbody".toList) =
      (openDelim ++ "published: draft\ncover: gen.png\ndescription: hi\n".toList ++
         openDelim ++ "body".toList,
       [.readFile ⟨false, ["p", "a.md"]⟩, .genCoverAuto,
        .writeFile ⟨false, ["p", "a.md"]⟩ ("---\ncover: gen.png\ndescription: hi\n---\nbody".toList),
        .uploadCall ⟨false, ["p", "a.md"]⟩, .readFile ⟨false, ["p", "a.md"]⟩,
        .writeFile ⟨false, ["p", "a.md"]⟩
          (openDelim ++ "published: draft\ncover: gen.png\ndescription: hi\n".toList ++
           openDelim ++ "body".toList)],
       .ok .uploaded) ∧
    update_frontmatter miniYaml ("---\ncover: gen.png\ndescription: hi\n---\nbody".toList)
        (fun g => g.set_published "draft") =
      .ok (openDelim ++ "published: draft\ncover: gen.png\ndescription: hi\n".toList ++
           openDelim ++ "body".toList) := by
  have h := c5_final_write_mutates_only_published
    ⟨miniYaml, true, fun _ => false, fun _ _ => .ok "gen.png",
     fun _ _ => .error "x", fun _ => .ok "draft9"⟩
    ⟨false, ["p", "a.md"]⟩ false ("---\ndescription: hi\n---\nbody".toList)
    ⟨none, none, none, none, none, "hi", .mapping []⟩ ("body".toList) "gen.png"
    ("---\ncover: gen.png\ndescription: hi\n---\nbody".toList)
    ⟨none, none, some "gen.png", none, none, "hi", .mapping []⟩ ("body".toList)
    ("published: draft\ncover: gen.png\ndescription: hi\n".toList) "draft9"
    (by decide) (by decide) (by decide) (by decide) (by decide) (by decide)
    (by decide) (by decide) (by decide)
  exact ⟨h.1, h.2.1⟩

/-! ## C10: cover generation failure keeps the declared cover -/

/-- C10: with an AI provider configured, a declared cover missing on disk,
and generation to the declared path failing, the orchestrator keeps the
metadata's declared cover reference (never clearing or overwriting it), does
not write the file before uploading, and still proceeds to upload; the final
status write (a re-read of the untouched disk) carries the declared cover
into the final content. -/
theorem c10_cover_preserved_on_generation_failure (env : PipelineEnv)
    (path : MPath) (force : Bool) (disk : List Char) (fm : Frontmatter)
    (body : List Char) (f : String) (e : String) (d : String) (y : List Char)
    (hai : env.hasAI = true)
    (hparse : parse_markdown env.codec disk = .ok (fm, body))
    (hskip : (!force && fm.is_published) = false)
    (hcov : fm.cover = some f)
    (hex : (resolve_and_check_cover_path env.fsEx path f).2 = false)
    (hgen : env.gen_to_path body (resolve_and_check_cover_path env.fsEx path f).1 =
      .error e)
    (hup : env.upload path = .ok d)
    (hser : env.codec.ser (fm.set_published "draft") = .ok y) :
    upload_file env path force disk =
      (openDelim ++ y ++ openDelim ++ body,
       [.readFile path,
        .genCoverToPath (resolve_and_check_cover_path env.fsEx path f).1,
        .uploadCall path, .readFile path,
        .writeFile path (openDelim ++ y ++ openDelim ++ body)],
       .ok .uploaded) ∧
    (fm.set_published "draft").cover = some f := by
  have hupd : update_frontmatter env.codec disk (fun g => g.set_published "draft") =
      .ok (openDelim ++ y ++ openDelim ++ body) := by
    unfold update_frontmatter format_markdown
    simp only [hparse, hser]
  refine ⟨?_, by simp [Frontmatter.set_published, hcov]⟩
  unfold upload_file cover_phase ensure_cover_image
  simp only [hparse, hskip, hai, hcov, hex, hgen, hup, hupd,
    Bool.false_eq_true, if_false, if_true, Bool.not_false, Bool.true_eq_false]
  rfl

/-- Witness for C10: a concrete run with a declared missing cover whose
generation fails; the final file still names the declared cover. -/
theorem c10_cover_preserved_on_generation_failure_witness :
    upload_file
        ⟨miniYaml, true, fun _ => false, fun _ _ => .error "x",
         fun _ _ => .error "genfail", fun _ => .ok "d1"⟩
        ⟨false, ["a.md"]⟩ false ("---\ncover: c.png\n---\nhello".toList) =
      (openDelim ++ "published: draft\ncover: c.png\n".toList ++ openDelim ++
         "hello".toList,
       [.readFile ⟨false, ["a.md"]⟩, .genCoverToPath ⟨false, ["c.png"]⟩,
        .uploadCall ⟨false, ["a.md"]⟩, .readFile ⟨false, ["a.md"]⟩,
        .writeFile ⟨false, ["a.md"]⟩
          (openDelim ++ "published: draft\ncover: c.png\n".toList ++ openDelim ++
           "hello".toList)],
       .ok .uploaded) := by
  have h := c10_cover_preserved_on_generation_failure
    ⟨miniYaml, true, fun _ => false, fun _ _ => .error "x",
     fun _ _ => .error "genfail", fun _ => .ok "d1"⟩
    ⟨false, ["a.md"]⟩ false ("---\ncover: c.png\n---\nhello".toList)
    ⟨none, none, some "c.png", none, none, "", .mapping []⟩ ("hello".toList)
    "c.png" "genfail" "d1" ("published: draft\ncover: c.png\n".toList)
    (by decide) (by decide) (by decide) (by decide) (by decide) (by decide)
    (by decide) (by decide)
  have hr : (resolve_and_check_cover_path (fun _ => (false : Bool))
      ⟨false, ["a.md"]⟩ "c.png").1 = (⟨false, ["c.png"]⟩ : MPath) := by decide
  rw [hr] at h
  exact h.1

/-! ## C1: error propagation in directory mode -/

/-- C1 (amended): in directory mode a file failure halts the run —
`process_directory` returns that file's error and the remaining markdown
files are not processed; only when a file succeeds does processing continue
with the rest. -/
theorem process_files_cons (env : PipelineEnv) (fs : MPath → List Char)
    (p : MPath) (rest : List MPath) :
    process_files env fs (p :: rest) =
      match upload_file env p false (fs p) with
      | (final, _, .error e) => ([(p, final)], .error e)
      | (final, _, .ok _) =>
        ((p, final) :: (process_files env fs rest).1,
         (process_files env fs rest).2) := rfl

theorem c1_failure_halts_directory (env : PipelineEnv) (fs : MPath → List Char)
    (entries : List MPath) (p : MPath) (rest : List MPath)
    (hmd : entries.filter (fun q => q.extension = some "md") = p :: rest) :
    (∀ final evs e, upload_file env p false (fs p) = (final, evs, .error e) →
       process_directory env entries fs = ([(p, final)], .error e)) ∧
    (∀ final evs res, upload_file env p false (fs p) = (final, evs, .ok res) →
       process_directory env entries fs =
         ((p, final) :: (process_files env fs rest).1,
          (process_files env fs rest).2)) := by
  constructor
  · intro final evs e hu
    unfold process_directory
    rw [hmd, process_files_cons, hu]
  · intro final evs res hu
    unfold process_directory
    rw [hmd, process_files_cons, hu]

/-- Counterexample for C1 as stated: two markdown files, the first failing to
publish; the directory call returns the publish error even though traversal
was fine, and the second file is never processed. -/
theorem c1_counterexample :
    process_directory
        ⟨miniYaml, false, fun _ => false, fun _ _ => .error "x",
         fun _ _ => .error "x",
         fun p => if p = ⟨false, ["a.md"]⟩ then .error "boom" else .ok "d"⟩
        [⟨false, ["a.md"]⟩, ⟨false, ["b.md"]⟩] (fun _ => "X".toList) =
      ([(⟨false, ["a.md"]⟩, "X".toList)],
       .error (.wechat "WeChat upload failed: WeChat API error: boom")) := by
  decide

/-- Witness for C1 (amended): on the success side, processing continues and
the remaining (empty) suffix yields the overall `Ok`. -/
theorem c1_failure_halts_directory_witness :
    process_directory
        ⟨miniYaml, false, fun _ => false, fun _ _ => .error "x",
         fun _ _ => .error "x", fun _ => .ok "d"⟩
        [⟨false, ["a.md"]⟩] (fun _ => "X".toList) =
      ([(⟨false, ["a.md"]⟩, "---\npublished: draft\n---\nX".toList)], .ok ()) := by
  have h := (c1_failure_halts_directory
    ⟨miniYaml, false, fun _ => false, fun _ _ => .error "x",
     fun _ _ => .error "x", fun _ => .ok "d"⟩
    (fun _ => "X".toList) [⟨false, ["a.md"]⟩] ⟨false, ["a.md"]⟩ [] (by decide)).2
    ("---\npublished: draft\n---\nX".toList)
    [.readFile ⟨false, ["a.md"]⟩, .uploadCall ⟨false, ["a.md"]⟩,
     .readFile ⟨false, ["a.md"]⟩,
     .writeFile ⟨false, ["a.md"]⟩ ("---\npublished: draft\n---\nX".toList)]
    .uploaded (by decide)
  simpa using h

/-! ## C6: account selection in Config::from_file -/

/-- C6 (amended): `from_file` fails with the account-set error when zero
accounts are declared; fails listing the available account names when the
requested name is absent; and with neither a requested name nor a file
default it selects the first account in the HashMap's iteration order — an
unspecified order that need not be the file's declaration order. -/
theorem c6_from_file_selection (cf : ConfigFile) (path : String)
    (env_ai : Option AiProvider) :
    (cf.accounts = [] →
       Config.from_file cf path none env_ai =
         .error (.config "No WeChat accounts configured")) ∧
    (∀ n, cf.accounts ≠ [] → cf.accounts.lookup n = none →
       Config.from_file cf path (some n) env_ai =
         .error (.config ("Account \x27" ++ n ++
           "\x27 not found in configuration. Available accounts: " ++
           String.intercalate ", " (cf.accounts.map Prod.fst)))) ∧
    (∀ k a rest, cf.accounts = (k, a) :: rest → cf.default_account = none →
       cf.ai_provider = none → cf.accounts.lookup k = some a →
       Config.from_file cf path none env_ai =
         .ok ⟨a, cf.accounts, env_ai,
              ((cf.settings.bind GlobalSettings.verbose).getD false),
              some path⟩) := by
  refine ⟨?_, ?_, ?_⟩
  · intro h
    unfold Config.from_file
    rw [h]
    rfl
  · intro n hne hlk
    unfold Config.from_file
    rw [if_neg (by simpa [List.isEmpty_iff] using hne)]
    simp only [hlk]
  · intro k a rest hacc hdef hai hlk
    unfold Config.from_file
    rw [if_neg (by simp [hacc])]
    simp [hdef, hacc, hlk, hai]

/-- Counterexample for C6 as stated: an iteration order that is a permutation
of the two declared accounts but starts with the second one; with no
requested name and no default, `from_file` selects the account the HashMap
yields first, not the first account in insertion order. -/
theorem c6_insertion_order_counterexample :
    List.Perm
        [("b", (⟨"b", "idB", "secB", none⟩ : WeChatAccount)),
         ("a", ⟨"a", "idA", "secA", none⟩)]
        [("a", (⟨"a", "idA", "secA", none⟩ : WeChatAccount)),
         ("b", ⟨"b", "idB", "secB", none⟩)] ∧
    Config.from_file
        ⟨[("b", ⟨"b", "idB", "secB", none⟩), ("a", ⟨"a", "idA", "secA", none⟩)],
         none, none, none⟩ "cfg.yaml" none none =
      .ok ⟨⟨"b", "idB", "secB", none⟩,
           [("b", ⟨"b", "idB", "secB", none⟩), ("a", ⟨"a", "idA", "secA", none⟩)],
           none, false, some "cfg.yaml"⟩ ∧
    (⟨"b", "idB", "secB", none⟩ : WeChatAccount) ≠ ⟨"a", "idA", "secA", none⟩ := by
  refine ⟨by decide, by decide, by decide⟩

/-- Witness for C6 (amended) at concrete configurations: the empty account
set, a missing requested name, and the default-free selection of the first
yielded account. -/
theorem c6_from_file_selection_witness :
    Config.from_file ⟨[], none, none, none⟩ "p" none none =
      .error (.config "No WeChat accounts configured") ∧
    Config.from_file ⟨[("a", ⟨"a", "idA", "secA", none⟩)], none, none, none⟩ "p"
        (some "z") none =
      .error (.config ("Account \x27z\x27 not found in configuration. " ++
        "Available accounts: a")) ∧
    Config.from_file ⟨[("a", ⟨"a", "idA", "secA", none⟩)], none, none, none⟩ "p"
        none none =
      .ok ⟨⟨"a", "idA", "secA", none⟩, [("a", ⟨"a", "idA", "secA", none⟩)],
           none, false, some "p"⟩ := by
  refine ⟨(c6_from_file_selection ⟨[], none, none, none⟩ "p" none).1 rfl, ?_, ?_⟩
  · have h := (c6_from_file_selection
      ⟨[("a", ⟨"a", "idA", "secA", none⟩)], none, none, none⟩ "p" none).2.1
      "z" (by decide) (by decide)
    simpa using h
  · exact (c6_from_file_selection
      ⟨[("a", ⟨"a", "idA", "secA", none⟩)], none, none, none⟩ "p" none).2.2
      "a" ⟨"a", "idA", "secA", none⟩ [] rfl rfl rfl (by decide)

/-! ## C8: the scene-description truncation and fallback -/

theorem take_bytes_cons_one (ch : Char) (rest : List Char) (n : Nat)
    (h : ch.utf8Size = 1) :
    take_bytes (ch :: rest) (n + 1) = (take_bytes rest n).map (fun t => ch :: t) := by
  show (if ch.utf8Size ≤ n + 1 then
      (take_bytes rest (n + 1 - ch.utf8Size)).map (fun t => ch :: t)
    else none) = (take_bytes rest n).map (fun t => ch :: t)
  rw [h]
  simp

theorem take_bytes_replicate_a (k : Nat) (l : List Char) (n : Nat) (hk : k ≤ n) :
    take_bytes (List.replicate k 'a' ++ l) n =
      (take_bytes l (n - k)).map (fun t => List.replicate k 'a' ++ t) := by
  induction k generalizing n with
  | zero => simp
  | succ k ih =>
    obtain ⟨m, rfl⟩ : ∃ m, n = m + 1 := ⟨n - 1, by omega⟩
    rw [List.replicate_succ, List.cons_append,
        take_bytes_cons_one 'a' _ m (by decide), ih m (by omega)]
    rw [show m + 1 - (k + 1) = m - k from by omega]
    rw [Option.map_map]
    rfl

set_option maxRecDepth 8192

/-- C8: the truncation `&content[..2000]` is a byte slice: on a body whose
2000th byte falls inside a multi-byte character it panics (modelled as
`none`) instead of succeeding — refuting "the truncation succeeds on every
input". The empty-extraction fallback does hold: an empty or absent response
text yields the fixed fallback description, not an error. -/
theorem c8_truncation_byte_slice_panic :
    truncate_content (List.replicate 1999 'a' ++ ['é', 'a', 'a']) = none ∧
    generate_scene_description (fun _ => .ok (some ""))
        ("Short article".toList) = some (.ok fallback_scene_description) ∧
    generate_scene_description (fun _ => .ok none)
        ("Short article".toList) = some (.ok fallback_scene_description) ∧
    generate_scene_description (fun _ => .ok (some " a scene "))
        ("Short article".toList) = some (.ok "a scene") := by
  refine ⟨?_, by decide, by decide, by decide⟩
  have ha : ('a'.utf8Size) = 1 := by decide
  have hsm : ((['é', 'a', 'a'].map Char.utf8Size).sum) = 4 := by decide
  have hlen : byteLen (List.replicate 1999 'a' ++ ['é', 'a', 'a']) = 2003 := by
    unfold byteLen
    rw [List.map_append, List.sum_append, List.map_replicate, ha,
        List.sum_replicate, hsm]
    norm_num
  unfold truncate_content
  rw [hlen, if_pos (by omega),
      take_bytes_replicate_a 1999 ['é', 'a', 'a'] 2000 (by omega)]
  rw [show (2000 : Nat) - 1999 = 1 from by omega]
  rw [show take_bytes ['é', 'a', 'a'] 1 = none from by decide]
  rfl

/-! ## C9: cover path resolution -/

/-- C9 (amended): an absolute cover reference resolves to itself; a relative
reference resolves against the directory containing the article file whenever
the article path has one; for a parentless article path the source falls back
to `Path::new(".")`, the process working directory. -/
theorem c9_cover_path_resolution (fsEx : MPath → Bool) (md : MPath)
    (cover : String) :
    ((MPath.ofString cover).absolute = true →
       (resolve_and_check_cover_path fsEx md cover).1 = MPath.ofString cover) ∧
    (∀ dir, (MPath.ofString cover).absolute = false → md.parent = some dir →
       (resolve_and_check_cover_path fsEx md cover).1 =
         dir.join (MPath.ofString cover)) := by
  constructor
  · intro h
    unfold resolve_and_check_cover_path
    simp [h]
  · intro dir h hd
    unfold resolve_and_check_cover_path
    simp [h, hd]

/-- Counterexample for C9 as stated: for the parentless article path `/` and
a relative cover reference, the resolved path is `./c.png` — the fallback to
the process working directory, not a join against a directory containing the
article file. -/
theorem c9_cwd_fallback_counterexample :
    MPath.parent ⟨true, []⟩ = none ∧
    (resolve_and_check_cover_path (fun _ => false) ⟨true, []⟩ "c.png").1 =
      MPath.curDir.join (MPath.ofString "c.png") ∧
    (resolve_and_check_cover_path (fun _ => false) ⟨true, []⟩ "c.png").1 =
      ⟨false, [".", "c.png"]⟩ := by
  refine ⟨rfl, by decide, by decide⟩

/-- Witness for C9 (amended): a relative reference resolves into the
article's directory; an absolute reference resolves to itself. -/
theorem c9_cover_path_resolution_witness :
    (resolve_and_check_cover_path (fun _ => false) ⟨false, ["dir", "a.md"]⟩
        "c.png").1 = MPath.join ⟨false, ["dir"]⟩ ⟨false, ["c.png"]⟩ ∧
    (resolve_and_check_cover_path (fun _ => false) ⟨false, ["dir", "a.md"]⟩
        "/abs/c.png").1 = MPath.ofString "/abs/c.png" := by
  constructor
  · have h := (c9_cover_path_resolution (fun _ => false) ⟨false, ["dir", "a.md"]⟩
      "c.png").2 ⟨false, ["dir"]⟩ (by decide) (by decide)
    simpa using h
  · exact (c9_cover_path_resolution (fun _ => false) ⟨false, ["dir", "a.md"]⟩
      "/abs/c.png").1 (by decide)

end WxUploader
